import Mathlib

/-!
Shallow embedding of the peer-wire framing layer of a BitTorrent client
(`src/peer/connection.rs`): the `Frame` message model, the incremental
frame parser `parse_frame` operating on the receive buffer, the read loop
`read_frame`, the encoder `write_frame`, and the handshake exchange.

Bytes are modelled as `Nat` (a value on the wire is `< 256`); the receive
buffer `BytesMut` is a `List Nat` consumed from the front; u32 values are
`Nat` with an explicit `% 2^32` where Rust truncates.  The `bytes` crate
operations `get_u8` / `get_u32` / `split_to` panic when the buffer holds
fewer bytes than requested; a panic aborts the process and is modelled as
a distinct outcome (`ParseErr.panicOutOfBounds`).  The buffer value paired
with a panic outcome is unobservable in the original program.
-/

namespace Peer

/-- The framed message model (`enum Frame` in `src/peer/connection.rs`). -/
inductive Frame where
  | Choke
  | Unchoke
  | Interested
  | NotInterested
  | Have (index : Nat)
  | Bitfield (bitfield : List Nat)
  | Request (index begin_ length : Nat)
  | Piece (index begin_ : Nat) (chunk : List Nat)
  | Cancel (index begin_ length : Nat)
  deriving DecidableEq, Repr

/-- Source constant `U32_SIZE: usize = size_of::<u32>()` — 4 bytes. -/
def U32_SIZE : Nat := 4

/-- Source constant `FRAME_MAX: usize = 1 << 16` — 65536 bytes (64 KiB). -/
def FRAME_MAX : Nat := 65536

/-- Big-endian decoding, `u32::from_be_bytes([b0,b1,b2,b3])`. -/
def u32be (b0 b1 b2 b3 : Nat) : Nat :=
  ((b0 * 256 + b1) * 256 + b2) * 256 + b3

/-- The four big-endian bytes written by `write_u32(n)`; Rust's `as u32`
truncation is captured by the `% 256` of each extracted byte, so the bytes
encode `n % 2^32`. -/
def u32Bytes (n : Nat) : List Nat :=
  [n / 16777216 % 256, n / 65536 % 256, n / 256 % 256, n % 256]

/-- Reading `Buf::get_u32` from the front of the buffer: `none` models the panic
when fewer than 4 bytes remain. -/
def get_u32 : List Nat → Option (Nat × List Nat)
  | b0 :: b1 :: b2 :: b3 :: rest => some (u32be b0 b1 b2 b3, rest)
  | _ => none

/-- Splitting via `BytesMut::split_to(k)`: `none` models the panic when `k` exceeds the
buffer length. -/
def split_to (k : Nat) (buf : List Nat) : Option (List Nat × List Nat) :=
  if k ≤ buf.length then some (buf.take k, buf.drop k) else none

/-- How a `parse_frame` call can go wrong: the two `bail!` sites, plus the
process-aborting panic of an out-of-bounds buffer operation. -/
inductive ParseErr where
  | frameTooLarge (len : Nat)
  | invalidMessageKind (n : Nat)
  | panicOutOfBounds
  deriving DecidableEq, Repr

/-- Rust's `Result<Option<Frame>, _>` as returned by `parse_frame`. -/
inductive FrameResult where
  | ok (frame : Option Frame)
  | error (e : ParseErr)
  deriving DecidableEq, Repr

/-- Result of one `parse_frame` call together with the receive buffer it
leaves behind (`self.buf` is mutated in place in the source). -/
structure ParseOut where
  result : FrameResult
  buf : List Nat
  deriving DecidableEq, Repr

/-- The per-tag dispatch of `parse_frame` (the `match self.buf.get_u8()`
block), after the 4-byte prefix and the tag byte have been consumed.
`len` is the declared frame length, `body` the buffer past the tag byte.
For tag 7 Rust computes `len - 9` on `usize`, which underflows when
`len < 9`; debug builds panic at the subtraction and release builds wrap
to a huge count that makes `split_to` panic, so both are a panic. -/
def parse_body (len tag : Nat) (body : List Nat) : ParseOut :=
  match tag with
  | 0 => ⟨.ok (some .Choke), body⟩
  | 1 => ⟨.ok (some .Unchoke), body⟩
  | 2 => ⟨.ok (some .Interested), body⟩
  | 3 => ⟨.ok (some .NotInterested), body⟩
  | 4 =>
    match get_u32 body with
    | some (index, rest) => ⟨.ok (some (.Have index)), rest⟩
    | none => ⟨.error .panicOutOfBounds, body⟩
  | 5 =>
    match split_to (len - 1) body with
    | some (bitfield, rest) => ⟨.ok (some (.Bitfield bitfield)), rest⟩
    | none => ⟨.error .panicOutOfBounds, body⟩
  | 6 =>
    match get_u32 body with
    | some (index, r1) =>
      match get_u32 r1 with
      | some (begin_, r2) =>
        match get_u32 r2 with
        | some (length, r3) => ⟨.ok (some (.Request index begin_ length)), r3⟩
        | none => ⟨.error .panicOutOfBounds, r2⟩
      | none => ⟨.error .panicOutOfBounds, r1⟩
    | none => ⟨.error .panicOutOfBounds, body⟩
  | 7 =>
    match get_u32 body with
    | some (index, r1) =>
      match get_u32 r1 with
      | some (begin_, r2) =>
        if len < 9 then ⟨.error .panicOutOfBounds, r2⟩
        else
          match split_to (len - 9) r2 with
          | some (chunk, r3) => ⟨.ok (some (.Piece index begin_ chunk)), r3⟩
          | none => ⟨.error .panicOutOfBounds, r2⟩
      | none => ⟨.error .panicOutOfBounds, r1⟩
    | none => ⟨.error .panicOutOfBounds, body⟩
  | 8 =>
    match get_u32 body with
    | some (index, r1) =>
      match get_u32 r1 with
      | some (begin_, r2) =>
        match get_u32 r2 with
        | some (length, r3) => ⟨.ok (some (.Cancel index begin_ length)), r3⟩
        | none => ⟨.error .panicOutOfBounds, r2⟩
      | none => ⟨.error .panicOutOfBounds, r1⟩
    | none => ⟨.error .panicOutOfBounds, body⟩
  | n => ⟨.error (.invalidMessageKind n), body⟩

/-- The source's `Connection::parse_frame`: extract one frame from the front of the
receive buffer.  `.ok none` is Rust's `Ok(None)` ("not enough data"), and
a keep-alive (`len == 0`) consumes its 4-byte prefix and retries on the
remaining buffer. -/
def parse_frame : List Nat → ParseOut
  | b0 :: b1 :: b2 :: b3 :: rest =>
    let len := u32be b0 b1 b2 b3
    if len = 0 then
      parse_frame rest
    else if len > FRAME_MAX then
      ⟨.error (.frameTooLarge len), b0 :: b1 :: b2 :: b3 :: rest⟩
    else if rest.length < len then
      ⟨.ok none, b0 :: b1 :: b2 :: b3 :: rest⟩
    else
      match rest with
      | [] => ⟨.error .panicOutOfBounds, []⟩
      | tag :: body => parse_body len tag body
  | buf => ⟨.ok none, buf⟩

/-- The source's `impl From<&Frame> for u8`: the wire tag of each variant. -/
def Frame.toU8 : Frame → Nat
  | .Choke => 0
  | .Unchoke => 1
  | .Interested => 2
  | .NotInterested => 3
  | .Have _ => 4
  | .Bitfield _ => 5
  | .Request _ _ _ => 6
  | .Piece _ _ _ => 7
  | .Cancel _ _ _ => 8

/-- The source's `Connection::write_frame`: the exact byte sequence the connection
writes (and then flushes) for one frame.  Matches the source arm for arm:
`Have` writes literal length 5 and literal tag 4; `Bitfield` and `Piece`
write `(1 + len) as u32` / `(9 + len) as u32`; the four control variants
share the catch-all arm writing length 1 and the tag. -/
def write_frame : Frame → List Nat
  | .Have index => u32Bytes 5 ++ [4] ++ u32Bytes index
  | .Bitfield bitfield =>
      u32Bytes (1 + bitfield.length) ++ [Frame.toU8 (.Bitfield bitfield)] ++ bitfield
  | .Request index begin_ length =>
      u32Bytes 13 ++ [Frame.toU8 (.Request index begin_ length)] ++
        u32Bytes index ++ u32Bytes begin_ ++ u32Bytes length
  | .Piece index begin_ chunk =>
      u32Bytes (9 + chunk.length) ++ [Frame.toU8 (.Piece index begin_ chunk)] ++
        u32Bytes index ++ u32Bytes begin_ ++ chunk
  | .Cancel index begin_ length =>
      u32Bytes 13 ++ [Frame.toU8 (.Cancel index begin_ length)] ++
        u32Bytes index ++ u32Bytes begin_ ++ u32Bytes length
  | f => u32Bytes 1 ++ [Frame.toU8 f]

example : parse_frame (write_frame (.Have 7)) = ⟨.ok (some (.Have 7)), []⟩ := by decide
example : parse_frame (write_frame (.Bitfield [255, 1])) =
    ⟨.ok (some (.Bitfield [255, 1])), []⟩ := by decide
example : parse_frame [0, 0, 0, 1, 4] = ⟨.error .panicOutOfBounds, []⟩ := by decide
example : parse_frame [0, 0, 0, 2, 0, 99] = ⟨.ok (some .Choke), [99]⟩ := by decide

/-- How `read_frame` can fail: a parse failure propagated by `?`, or the
`bail!("connection reset by peer")` on a zero-byte read with data pending. -/
inductive ReadErr where
  | parse (e : ParseErr)
  | connectionReset
  deriving DecidableEq, Repr

/-- Rust's `Result<Option<Frame>, _>` of `read_frame`, paired with the
final receive buffer and the unread remainder of the stream. -/
inductive ReadOut where
  | ok (frame : Option Frame) (buf : List Nat) (stream : List (List Nat))
  | error (e : ReadErr)
  deriving DecidableEq, Repr

/-- The source's `Connection::read_frame`: loop parsing the buffer and reading from the
stream.  The stream is modelled as the list of byte chunks successive
`read_buf` calls return; an empty chunk — or an exhausted list — is a
zero-byte read (end of stream). -/
def read_frame : List Nat → List (List Nat) → ReadOut
  | buf, stream =>
    match parse_frame buf with
    | ⟨.error e, _⟩ => .error (.parse e)
    | ⟨.ok (some frame), buf1⟩ => .ok (some frame) buf1 stream
    | ⟨.ok none, buf1⟩ =>
      match stream with
      | [] => if buf1.isEmpty then .ok none buf1 [] else .error .connectionReset
      | chunk :: rest =>
        if chunk.isEmpty then
          if buf1.isEmpty then .ok none buf1 rest else .error .connectionReset
        else read_frame (buf1 ++ chunk) rest

/-- The invariants the Rust `Frame` type and a valid encoded frame impose:
`u32` fields fit in 32 bits, and variable payloads keep the declared frame
length (tag + payload) within `FRAME_MAX`, which is what makes the encoded
frame valid for the read path. -/
def FrameWF : Frame → Prop
  | .Have index => index < 4294967296
  | .Bitfield bitfield => 1 + bitfield.length ≤ FRAME_MAX
  | .Request index begin_ length =>
      index < 4294967296 ∧ begin_ < 4294967296 ∧ length < 4294967296
  | .Piece index begin_ chunk =>
      index < 4294967296 ∧ begin_ < 4294967296 ∧ 9 + chunk.length ≤ FRAME_MAX
  | .Cancel index begin_ length =>
      index < 4294967296 ∧ begin_ < 4294967296 ∧ length < 4294967296
  | _ => True

/-- The declared length (tag + payload) each variant is encoded with,
before `as u32` truncation. -/
def encLen : Frame → Nat
  | .Have _ => 5
  | .Bitfield bitfield => 1 + bitfield.length
  | .Request _ _ _ => 13
  | .Piece _ _ chunk => 9 + chunk.length
  | .Cancel _ _ _ => 13
  | _ => 1

/-- Modelled from the spec: the `HandshakePacket` type lives in a source
file not present under `src/`; §3 of the spec gives its layout — a 1-byte
protocol-string length, the constant ASCII protocol identifier, 8 reserved
zero bytes, the 20-byte info hash and the 20-byte peer id, big-endian with
no length prefix. -/
structure HandshakePacket where
  info_hash : List Nat
  peer_id : List Nat
  deriving DecidableEq, Repr

/-- Modelled from the spec: the constant ASCII protocol identifier
("BitTorrent protocol", 19 bytes). -/
def PROTOCOL : List Nat :=
  [66, 105, 116, 84, 111, 114, 114, 101, 110, 116, 32,
   112, 114, 111, 116, 111, 99, 111, 108]

/-- Modelled from the spec: the fixed total handshake-packet size
(1 + 19 + 8 + 20 + 20 = 68 bytes). -/
def HANDSHAKE_SIZE : Nat := 1 + PROTOCOL.length + 8 + 20 + 20

/-- Modelled from the spec: `HandshakePacket::as_bytes`, the packet's
fixed-size serialized form per the §3 layout table. -/
def HandshakePacket.toBytes (p : HandshakePacket) : List Nat :=
  [PROTOCOL.length] ++ PROTOCOL ++ List.replicate 8 0 ++ p.info_hash ++ p.peer_id

/-- Modelled from the spec: parsing a received fixed-size handshake block
back into its fields (the info hash starts after the 28 header bytes, the
peer id after 48). -/
def HandshakePacket.ofBytes (bs : List Nat) : HandshakePacket :=
  { info_hash := (bs.drop 28).take 20, peer_id := (bs.drop 48).take 20 }

/-- Result of `Connection::handshake`: the bytes written (and flushed) to
the stream and the peer packet read back, or failure when the stream
closes before `HANDSHAKE_SIZE` bytes arrive (`read_exact` errors). -/
inductive HandshakeOut where
  | ok (sent : List Nat) (peer : HandshakePacket)
  | error
  deriving DecidableEq, Repr

/-- The source's `Connection::handshake`: writes the local packet, flushes it, then
reads exactly `HANDSHAKE_SIZE` bytes from the incoming stream and returns
the parsed peer packet; it fails when fewer bytes arrive before close.
The write side is in `src/`; the packet layout is modelled from the spec
(see `HandshakePacket.toBytes`). -/
def handshake (info_hash peer_id : List Nat) (incoming : List Nat) : HandshakeOut :=
  let packet : HandshakePacket := ⟨info_hash, peer_id⟩
  if incoming.length < HANDSHAKE_SIZE then .error
  else .ok packet.toBytes (HandshakePacket.ofBytes (incoming.take HANDSHAKE_SIZE))

/-- The tag byte followed by the payload bytes of each variant's encoding,
i.e. everything `write_frame` emits after the 4-byte length prefix,
without the tag. -/
def framePayload : Frame → List Nat
  | .Have index => u32Bytes index
  | .Bitfield bitfield => bitfield
  | .Request index begin_ length => u32Bytes index ++ u32Bytes begin_ ++ u32Bytes length
  | .Piece index begin_ chunk => u32Bytes index ++ u32Bytes begin_ ++ chunk
  | .Cancel index begin_ length => u32Bytes index ++ u32Bytes begin_ ++ u32Bytes length
  | _ => []

theorem write_frame_eq (m : Frame) :
    write_frame m = u32Bytes (encLen m) ++ Frame.toU8 m :: framePayload m := by
  cases m <;> rfl

theorem framePayload_length (m : Frame) : encLen m = 1 + (framePayload m).length := by
  cases m
  all_goals simp [encLen, framePayload, u32Bytes]
  all_goals omega

theorem u32be_u32Bytes (n : Nat) (h : n < 4294967296) :
    u32be (n / 16777216 % 256) (n / 65536 % 256) (n / 256 % 256) (n % 256) = n := by
  unfold u32be
  omega

theorem get_u32_u32Bytes_append (n : Nat) (rest : List Nat) (h : n < 4294967296) :
    get_u32 (u32Bytes n ++ rest) = some (n, rest) := by
  simp only [u32Bytes, List.cons_append, List.nil_append, get_u32]
  rw [u32be_u32Bytes n h]

theorem get_u32_u32Bytes (n : Nat) (h : n < 4294967296) :
    get_u32 (u32Bytes n) = some (n, []) := by
  have := get_u32_u32Bytes_append n [] h
  simpa using this

theorem split_to_all (l : List Nat) : split_to l.length l = some (l, []) := by
  simp [split_to]

theorem parse_frame_cons (b0 b1 b2 b3 : Nat) (rest : List Nat) :
    parse_frame (b0 :: b1 :: b2 :: b3 :: rest) =
      (if u32be b0 b1 b2 b3 = 0 then parse_frame rest
       else if u32be b0 b1 b2 b3 > FRAME_MAX then
         ⟨.error (.frameTooLarge (u32be b0 b1 b2 b3)), b0 :: b1 :: b2 :: b3 :: rest⟩
       else if rest.length < u32be b0 b1 b2 b3 then
         ⟨.ok none, b0 :: b1 :: b2 :: b3 :: rest⟩
       else
         match rest with
         | [] => ⟨.error .panicOutOfBounds, []⟩
         | tag :: body => parse_body (u32be b0 b1 b2 b3) tag body) := by
  simp only [parse_frame]

theorem parse_frame_keepalive (rest : List Nat) :
    parse_frame (0 :: 0 :: 0 :: 0 :: rest) = parse_frame rest := by
  rw [parse_frame_cons]
  norm_num [u32be]

theorem parse_frame_u32Bytes_complete (L tag : Nat) (body : List Nat)
    (h0 : L ≠ 0) (h1 : L ≤ FRAME_MAX) (h3 : L ≤ 1 + body.length) :
    parse_frame (u32Bytes L ++ tag :: body) = parse_body L tag body := by
  have h2 : L < 4294967296 := by
    have : FRAME_MAX = 65536 := rfl
    omega
  simp only [u32Bytes, List.cons_append, List.nil_append]
  rw [parse_frame_cons, u32be_u32Bytes L h2]
  rw [if_neg h0, if_neg (by omega : ¬ L > FRAME_MAX)]
  rw [if_neg (by simp; omega : ¬ (tag :: body).length < L)]

theorem parse_frame_u32Bytes_short (L : Nat) (tp : List Nat)
    (h0 : L ≠ 0) (h1 : L ≤ FRAME_MAX) (h3 : tp.length < L) :
    parse_frame (u32Bytes L ++ tp) = ⟨.ok none, u32Bytes L ++ tp⟩ := by
  have h2 : L < 4294967296 := by
    have : FRAME_MAX = 65536 := rfl
    omega
  simp only [u32Bytes, List.cons_append, List.nil_append]
  rw [parse_frame_cons, u32be_u32Bytes L h2]
  rw [if_neg h0, if_neg (by omega : ¬ L > FRAME_MAX), if_pos h3]

theorem encLen_ne_zero (m : Frame) : encLen m ≠ 0 := by
  cases m <;> simp [encLen]

theorem encLen_le_FRAME_MAX (m : Frame) (h : FrameWF m) : encLen m ≤ FRAME_MAX := by
  cases m with
  | Bitfield bitfield => exact h
  | Piece index begin_ chunk => exact h.2.2
  | _ => simp [encLen, FRAME_MAX]

/-- Decoding inverts encoding: parsing the exact bytes `write_frame`
produces yields the original frame with the buffer fully consumed. -/
theorem parse_write_frame (m : Frame) (h : FrameWF m) :
    parse_frame (write_frame m) = ⟨.ok (some m), []⟩ := by
  rw [write_frame_eq m,
    parse_frame_u32Bytes_complete (encLen m) (Frame.toU8 m) (framePayload m)
      (encLen_ne_zero m) (encLen_le_FRAME_MAX m h) (le_of_eq (framePayload_length m))]
  cases m with
  | Have index =>
      simp only [encLen, Frame.toU8, framePayload, parse_body, get_u32_u32Bytes index h]
  | Bitfield bitfield =>
      simp only [encLen, Frame.toU8, framePayload, parse_body,
        Nat.add_sub_cancel_left, Nat.add_comm 1 bitfield.length, Nat.add_sub_cancel,
        split_to_all]
  | Request index begin_ length =>
      obtain ⟨hi, hb, hl⟩ := h
      simp only [encLen, Frame.toU8, framePayload, parse_body, List.append_assoc,
        get_u32_u32Bytes_append index _ hi, get_u32_u32Bytes_append begin_ _ hb,
        get_u32_u32Bytes length hl]
  | Piece index begin_ chunk =>
      obtain ⟨hi, hb, _⟩ := h
      simp only [encLen, Frame.toU8, framePayload, parse_body, List.append_assoc,
        get_u32_u32Bytes_append index _ hi, get_u32_u32Bytes_append begin_ _ hb]
      rw [if_neg (by omega : ¬ 9 + chunk.length < 9)]
      simp only [Nat.add_sub_cancel_left, split_to_all]
  | Cancel index begin_ length =>
      obtain ⟨hi, hb, hl⟩ := h
      simp only [encLen, Frame.toU8, framePayload, parse_body, List.append_assoc,
        get_u32_u32Bytes_append index _ hi, get_u32_u32Bytes_append begin_ _ hb,
        get_u32_u32Bytes length hl]
  | _ => rfl

theorem parse_frame_short (l : List Nat) (h : l.length < 4) :
    parse_frame l = ⟨.ok none, l⟩ := by
  match l with
  | [] | [_] | [_, _] | [_, _, _] => rfl
  | _ :: _ :: _ :: _ :: _ => simp at h; omega

theorem parse_frame_too_large (b0 b1 b2 b3 : Nat) (rest : List Nat)
    (h : u32be b0 b1 b2 b3 > FRAME_MAX) :
    parse_frame (b0 :: b1 :: b2 :: b3 :: rest) =
      ⟨.error (.frameTooLarge (u32be b0 b1 b2 b3)), b0 :: b1 :: b2 :: b3 :: rest⟩ := by
  rw [parse_frame_cons, if_neg (by simp [FRAME_MAX] at h; omega), if_pos h]

theorem parse_frame_u32Bytes_too_large (L : Nat) (tp : List Nat)
    (h : L > FRAME_MAX) (h2 : L < 4294967296) :
    parse_frame (u32Bytes L ++ tp) = ⟨.error (.frameTooLarge L), u32Bytes L ++ tp⟩ := by
  simp only [u32Bytes, List.cons_append, List.nil_append]
  rw [parse_frame_cons, u32be_u32Bytes L h2, if_neg (by omega), if_pos h]

theorem write_piece_oversized (index begin_ : Nat) (chunk : List Nat)
    (h : 9 + chunk.length > FRAME_MAX) (h2 : 9 + chunk.length < 4294967296) :
    (parse_frame (write_frame (.Piece index begin_ chunk))).result =
      .error (.frameTooLarge (9 + chunk.length)) := by
  rw [write_frame_eq,
    parse_frame_u32Bytes_too_large (encLen (.Piece index begin_ chunk)) _ h h2]
  rfl

theorem write_frame_length (m : Frame) : (write_frame m).length = 4 + encLen m := by
  have h := framePayload_length m
  rw [write_frame_eq]
  simp [u32Bytes]
  omega

theorem u32Bytes_append_take (L j : Nat) (tp : List Nat) :
    (u32Bytes L ++ tp).take (4 + j) = u32Bytes L ++ tp.take j := by
  simp only [u32Bytes, List.cons_append, List.nil_append]
  rw [Nat.add_comm]
  rfl

/-- C1: decoding inverts encoding for every message variant — feeding the
exact bytes of `write_frame m` to `parse_frame` returns `Some m` with the
receive buffer fully consumed.  `FrameWF` states the invariants of the
Rust `Frame` type (u32 fields fit in 32 bits) and frame validity (the
declared length stays within `FRAME_MAX`). -/
theorem C1_decode_encode (m : Frame) (h : FrameWF m) :
    parse_frame (write_frame m) = ⟨.ok (some m), []⟩ :=
  parse_write_frame m h

theorem C1_decode_encode_witness :
    parse_frame (write_frame (.Piece 7 0 [])) = ⟨.ok (some (.Piece 7 0 [])), []⟩ :=
  C1_decode_encode (.Piece 7 0 []) (by simp [FrameWF, FRAME_MAX])

/-- C3: when the 4-byte big-endian prefix decodes to a length above
`FRAME_MAX`, `parse_frame` fails with the protocol-violation error and the
buffer is left untouched — no bytes consumed, whether or not the declared
payload is present. -/
theorem C3_oversized_frame_rejected (b0 b1 b2 b3 : Nat) (rest : List Nat)
    (h : u32be b0 b1 b2 b3 > FRAME_MAX) :
    parse_frame (b0 :: b1 :: b2 :: b3 :: rest) =
      ⟨.error (.frameTooLarge (u32be b0 b1 b2 b3)), b0 :: b1 :: b2 :: b3 :: rest⟩ :=
  parse_frame_too_large b0 b1 b2 b3 rest h

theorem C3_oversized_frame_rejected_witness :
    parse_frame [0, 1, 0, 1] = ⟨.error (.frameTooLarge 65537), [0, 1, 0, 1]⟩ :=
  C3_oversized_frame_rejected 0 1 0 1 [] (by decide)

/-- C4: on the exact buffer `[00 00 00 01][04]` (a `have` frame whose
declared length 1 leaves no room for the 4-byte index) the code reaches
`get_u32` with an empty buffer, which panics — it does not return the
error the claim requires, and it does not produce a truncated `Have`. -/
theorem C4_truncated_have_panics :
    parse_frame [0, 0, 0, 1, 4] = ⟨.error .panicOutOfBounds, []⟩ := by decide

/-- C6: a zero length prefix is a keep-alive — `parse_frame` consumes
exactly its 4 bytes and retries on the remainder, so a keep-alive followed
by one complete real frame decodes to exactly that real frame with the
whole buffer consumed. -/
theorem C6_keepalive_consumed (m : Frame) (h : FrameWF m) :
    (∀ rest : List Nat, parse_frame (0 :: 0 :: 0 :: 0 :: rest) = parse_frame rest) ∧
    parse_frame ([0, 0, 0, 0] ++ write_frame m) = ⟨.ok (some m), []⟩ := by
  refine ⟨parse_frame_keepalive, ?_⟩
  simp only [List.cons_append, List.nil_append]
  rw [parse_frame_keepalive]
  exact parse_write_frame m h

theorem C6_keepalive_consumed_witness :
    parse_frame ([0, 0, 0, 0] ++ write_frame (.Have 1)) = ⟨.ok (some (.Have 1)), []⟩ :=
  (C6_keepalive_consumed (.Have 1) (by simp [FrameWF])).2

/-- The wire format exactly as the spec's §6 table states it: a 4-byte
big-endian length counting everything after itself (1 for the tag plus
the payload), the tag from the table, then the payload fields big-endian
in declared order.  Spec-side definition, to be compared with the
source-derived `write_frame`. -/
def wireSpecEncode : Frame → List Nat
  | .Choke => u32Bytes 1 ++ [0]
  | .Unchoke => u32Bytes 1 ++ [1]
  | .Interested => u32Bytes 1 ++ [2]
  | .NotInterested => u32Bytes 1 ++ [3]
  | .Have index => u32Bytes 5 ++ [4] ++ u32Bytes index
  | .Bitfield bitfield => u32Bytes (1 + bitfield.length) ++ [5] ++ bitfield
  | .Request index begin_ length =>
      u32Bytes 13 ++ [6] ++ u32Bytes index ++ u32Bytes begin_ ++ u32Bytes length
  | .Piece index begin_ chunk =>
      u32Bytes (9 + chunk.length) ++ [7] ++ u32Bytes index ++ u32Bytes begin_ ++ chunk
  | .Cancel index begin_ length =>
      u32Bytes 13 ++ [8] ++ u32Bytes index ++ u32Bytes begin_ ++ u32Bytes length

/-- C8: for every message variant, the bytes `write_frame` emits (and then
flushes) are exactly the spec's wire format — the 4-byte big-endian length
(1, 5, 1+N, 13, 9+N per variant), the tag 0–8 from the table, then the
payload fields big-endian in declared order. -/
theorem C8_write_frame_wire_format (m : Frame) : write_frame m = wireSpecEncode m := by
  cases m <;> rfl

/-- C10: the write path validates nothing — a `Bitfield`/`Piece` length
prefix is `(1 + N) % 2^32` / `(9 + N) % 2^32` with no check against
`FRAME_MAX`, so `write_frame` happily emits a frame (a `Piece` with a
65528-byte chunk) that this same core's `parse_frame` rejects as a
protocol violation. -/
theorem C10_write_no_size_validation (bitfield chunk big : List Nat) (index begin_ : Nat)
    (hbig : FRAME_MAX < 9 + big.length) (h32 : 9 + big.length < 4294967296) :
    (write_frame (.Bitfield bitfield)).take 4 =
      u32Bytes ((1 + bitfield.length) % 4294967296) ∧
    (write_frame (.Piece index begin_ chunk)).take 4 =
      u32Bytes ((9 + chunk.length) % 4294967296) ∧
    (parse_frame (write_frame (.Piece index begin_ big))).result =
      .error (.frameTooLarge (9 + big.length)) := by
  refine ⟨?_, ?_, write_piece_oversized index begin_ big hbig h32⟩
  · simp only [write_frame, List.append_assoc, u32Bytes_append_take
      (1 + bitfield.length) 0, List.take_zero, List.append_nil, u32Bytes]
    norm_num
    omega
  · simp only [write_frame, List.append_assoc, u32Bytes_append_take
      (9 + chunk.length) 0, List.take_zero, List.append_nil, u32Bytes]
    norm_num
    omega

/-- C5: a zero-byte stream read with an empty receive buffer is a clean
close (`Ok(None)`); with a partial frame pending it is a connection-reset
failure.  Concretely: a complete 5-byte `have` frame then close yields the
message and then end-of-stream; only the prefix-plus-tag then close fails
instead of reporting end-of-stream. -/
theorem C5_eof_vs_reset (buf buf1 : List Nat) (cs : List (List Nat))
    (hp : parse_frame buf = ⟨.ok none, buf1⟩) :
    ((buf1 = [] → read_frame buf ([] :: cs) = .ok none buf1 cs) ∧
     (buf1 ≠ [] → read_frame buf ([] :: cs) = .error .connectionReset)) ∧
    read_frame [] [[0, 0, 0, 5, 4, 0, 0, 0, 7]] = .ok (some (.Have 7)) [] [] ∧
    read_frame [] [] = .ok none [] [] ∧
    read_frame [] [[0, 0, 0, 5, 4]] = .error .connectionReset := by
  refine ⟨⟨?_, ?_⟩, by decide, by decide, by decide⟩
  · intro h
    rw [read_frame, hp]
    simp [h]
  · intro h
    rw [read_frame, hp]
    simp [h]

theorem C5_eof_vs_reset_witness :
    read_frame [0, 0, 0, 9] [[]] = .error .connectionReset :=
  ((C5_eof_vs_reset [0, 0, 0, 9] [0, 0, 0, 9] [] (by decide)).1.2) (by decide)

/-- C7: frame extraction is resumable — every strict prefix of a valid
encoded frame parses to "not enough data" with the buffered bytes left
unchanged, and the complete buffer parses to the identical message a
single-shot append produces; the cumulative buffers of any byte-boundary
split are exactly these prefixes. -/
theorem C7_resumable (m : Frame) (k : Nat) (h : FrameWF m)
    (hk : k < (write_frame m).length) :
    parse_frame ((write_frame m).take k) = ⟨.ok none, (write_frame m).take k⟩ ∧
    parse_frame (write_frame m) = ⟨.ok (some m), []⟩ := by
  refine ⟨?_, parse_write_frame m h⟩
  rcases Nat.lt_or_ge k 4 with h4 | h4
  · apply parse_frame_short
    simp [List.length_take]
    omega
  · obtain ⟨j, rfl⟩ : ∃ j, k = 4 + j := ⟨k - 4, by omega⟩
    have hfl := framePayload_length m
    rw [write_frame_length m] at hk
    rw [write_frame_eq, u32Bytes_append_take]
    apply parse_frame_u32Bytes_short (encLen m) _ (encLen_ne_zero m)
      (encLen_le_FRAME_MAX m h)
    simp [List.length_take]
    omega

theorem C7_resumable_witness :
    parse_frame ((write_frame .Choke).take 2) =
      ⟨.ok none, (write_frame .Choke).take 2⟩ ∧
    parse_frame (write_frame .Choke) = ⟨.ok (some .Choke), []⟩ :=
  C7_resumable .Choke 2 True.intro (by decide)

/-- C9: the handshake writes the complete fixed-size local packet, then
reads exactly `HANDSHAKE_SIZE` bytes and returns the peer's parsed packet;
it fails whenever the stream closes before the full fixed size arrives,
and a loopback roundtrip reproduces the exact 20-byte info hash and
20-byte peer id. -/
theorem C9_handshake_roundtrip (ih pid : List Nat)
    (hih : ih.length = 20) (hpid : pid.length = 20) :
    (∀ incoming : List Nat, incoming.length < HANDSHAKE_SIZE →
        handshake ih pid incoming = .error) ∧
    handshake ih pid (HandshakePacket.toBytes ⟨ih, pid⟩) =
      .ok (HandshakePacket.toBytes ⟨ih, pid⟩) ⟨ih, pid⟩ := by
  constructor
  · intro incoming hlt
    simp [handshake, hlt]
  · have hlen : (HandshakePacket.toBytes ⟨ih, pid⟩).length = 68 := by
      simp [HandshakePacket.toBytes, PROTOCOL, hih, hpid]
    have hdrop28 : (HandshakePacket.toBytes ⟨ih, pid⟩).drop 28 = ih ++ pid := rfl
    have hdrop48 : (HandshakePacket.toBytes ⟨ih, pid⟩).drop 48 = pid := by
      rw [show (48 : Nat) = 28 + 20 from rfl, ← List.drop_drop, hdrop28]
      exact List.drop_left' hih
    have htake : (HandshakePacket.toBytes ⟨ih, pid⟩).take HANDSHAKE_SIZE =
        HandshakePacket.toBytes ⟨ih, pid⟩ := by
      rw [show HANDSHAKE_SIZE = 68 from rfl, ← hlen]
      exact List.take_length _
    unfold handshake
    rw [if_neg (by rw [hlen]; norm_num [HANDSHAKE_SIZE, PROTOCOL]), htake]
    unfold HandshakePacket.ofBytes
    rw [hdrop28, hdrop48, List.take_left' hih,
      show pid.take 20 = pid from by rw [← hpid]; exact List.take_length _]

theorem C9_handshake_roundtrip_witness :
    handshake (List.replicate 20 1) (List.replicate 20 2)
        (HandshakePacket.toBytes ⟨List.replicate 20 1, List.replicate 20 2⟩) =
      .ok (HandshakePacket.toBytes ⟨List.replicate 20 1, List.replicate 20 2⟩)
        ⟨List.replicate 20 1, List.replicate 20 2⟩ :=
  (C9_handshake_roundtrip (List.replicate 20 1) (List.replicate 20 2)
    (by decide) (by decide)).2

theorem C10_write_no_size_validation_witness :
    (parse_frame (write_frame (.Piece 0 0 (List.replicate 65528 0)))).result =
      .error (.frameTooLarge (9 + (List.replicate 65528 (0 : Nat)).length)) :=
  (C10_write_no_size_validation [] [] (List.replicate 65528 0) 0 0
    (by rw [List.length_replicate]; norm_num [FRAME_MAX])
    (by rw [List.length_replicate]; norm_num)).2.2

/-- The number of payload bytes (past the tag byte) a successful dispatch
consumes for each tag: the declared `len - 1` only for the variable-length
tags 5 and 7; a fixed width for every other tag, whatever `len` declares. -/
def payloadConsumed (tag len : Nat) : Nat :=
  match tag with
  | 4 => 4
  | 5 => len - 1
  | 6 => 12
  | 7 => len - 1
  | 8 => 12
  | _ => 0

theorem get_u32_drop (body r : List Nat) (v : Nat)
    (h : get_u32 body = some (v, r)) : r = body.drop 4 := by
  match body with
  | a :: b :: c :: d :: rest =>
    simp only [get_u32, Option.some.injEq, Prod.mk.injEq] at h
    exact h.2.symm
  | [] | [_] | [_, _] | [_, _, _] => simp [get_u32] at h

theorem split_to_drop (k : Nat) (body p r : List Nat)
    (h : split_to k body = some (p, r)) : r = body.drop k := by
  unfold split_to at h
  split at h
  · simp only [Option.some.injEq, Prod.mk.injEq] at h
    exact h.2.symm
  · simp at h

theorem parse_frame_cons5 (b0 b1 b2 b3 tag : Nat) (body : List Nat)
    (h0 : ¬ u32be b0 b1 b2 b3 = 0) (h1 : ¬ u32be b0 b1 b2 b3 > FRAME_MAX)
    (h2 : ¬ (tag :: body).length < u32be b0 b1 b2 b3) :
    parse_frame (b0 :: b1 :: b2 :: b3 :: tag :: body) =
      parse_body (u32be b0 b1 b2 b3) tag body := by
  rw [parse_frame_cons, if_neg h0, if_neg h1, if_neg h2]

theorem parse_body_invalid (len n : Nat) (body : List Nat) :
    parse_body len (n + 9) body = ⟨.error (.invalidMessageKind (n + 9)), body⟩ := rfl

/-- C2 amended: whenever frame extraction successfully returns a message
from a buffer whose declared length `len` is at least 1, it consumes the
4-byte prefix, the tag byte, and `payloadConsumed` payload bytes —
`len - 1` (total `4 + len`) only for tags 5 and 7, a fixed 0/4/12 bytes
for tags 0–3, 4, 6 and 8 regardless of the declared `len` (totals 5, 9,
17), even when that stops short of or reads past the declared frame's
end — and every byte past the consumed point stays in the buffer
unchanged and in order. -/
theorem C2_consumption_amended (b0 b1 b2 b3 tag : Nat) (body : List Nat)
    (f : Frame) (out : List Nat)
    (hp : parse_frame (b0 :: b1 :: b2 :: b3 :: tag :: body) = ⟨.ok (some f), out⟩)
    (h0 : 1 ≤ u32be b0 b1 b2 b3) :
    out = body.drop (payloadConsumed tag (u32be b0 b1 b2 b3)) := by
  set L := u32be b0 b1 b2 b3 with hL
  by_cases hmax : L > FRAME_MAX
  · rw [parse_frame_too_large b0 b1 b2 b3 (tag :: body) (by omega)] at hp
    simp at hp
  by_cases hshort : (tag :: body).length < L
  · rw [parse_frame_cons, ← hL, if_neg (by omega), if_neg hmax, if_pos hshort] at hp
    simp at hp
  rw [parse_frame_cons5 b0 b1 b2 b3 tag body (by omega) (by omega) (by omega),
    ← hL] at hp
  rcases Nat.lt_or_ge tag 9 with htag | htag
  · interval_cases tag
    · simp only [parse_body] at hp
      have hout : body = out := congrArg ParseOut.buf hp
      rw [← hout]
      simp [payloadConsumed]
    · simp only [parse_body] at hp
      have hout : body = out := congrArg ParseOut.buf hp
      rw [← hout]
      simp [payloadConsumed]
    · simp only [parse_body] at hp
      have hout : body = out := congrArg ParseOut.buf hp
      rw [← hout]
      simp [payloadConsumed]
    · simp only [parse_body] at hp
      have hout : body = out := congrArg ParseOut.buf hp
      rw [← hout]
      simp [payloadConsumed]
    · simp only [parse_body] at hp
      split at hp
      next v r hg =>
        have hout : r = out := congrArg ParseOut.buf hp
        rw [← hout, get_u32_drop body r v hg]
        simp [payloadConsumed]
      next hg => simp at hp
    · simp only [parse_body] at hp
      split at hp
      next p r hsp =>
        have hout : r = out := congrArg ParseOut.buf hp
        rw [← hout, split_to_drop (L - 1) body p r hsp]
        simp [payloadConsumed]
      next hsp => simp at hp
    · simp only [parse_body] at hp
      split at hp
      next v1 r1 hg1 =>
        split at hp
        next v2 r2 hg2 =>
          split at hp
          next v3 r3 hg3 =>
            have hout : r3 = out := congrArg ParseOut.buf hp
            rw [← hout, get_u32_drop r2 r3 v3 hg3, get_u32_drop r1 r2 v2 hg2,
              get_u32_drop body r1 v1 hg1]
            simp [payloadConsumed, List.drop_drop]
          next hg3 => simp at hp
        next hg2 => simp at hp
      next hg1 => simp at hp
    · simp only [parse_body] at hp
      split at hp
      next v1 r1 hg1 =>
        split at hp
        next v2 r2 hg2 =>
          split at hp
          next h9 => simp at hp
          next h9 =>
            split at hp
            next chunk r3 hsp =>
              have hout : r3 = out := congrArg ParseOut.buf hp
              rw [← hout, split_to_drop (L - 9) r2 chunk r3 hsp,
                get_u32_drop r1 r2 v2 hg2, get_u32_drop body r1 v1 hg1,
                List.drop_drop, List.drop_drop,
                show 4 + (4 + (L - 9)) = L - 1 from by omega]
              simp [payloadConsumed]
            next hsp => simp at hp
        next hg2 => simp at hp
      next hg1 => simp at hp
    · simp only [parse_body] at hp
      split at hp
      next v1 r1 hg1 =>
        split at hp
        next v2 r2 hg2 =>
          split at hp
          next v3 r3 hg3 =>
            have hout : r3 = out := congrArg ParseOut.buf hp
            rw [← hout, get_u32_drop r2 r3 v3 hg3, get_u32_drop r1 r2 v2 hg2,
              get_u32_drop body r1 v1 hg1]
            simp [payloadConsumed, List.drop_drop]
          next hg3 => simp at hp
        next hg2 => simp at hp
      next hg1 => simp at hp
  · obtain ⟨n, rfl⟩ : ∃ n, tag = n + 9 := ⟨tag - 9, by omega⟩
    rw [parse_body_invalid] at hp
    simp at hp

theorem C2_consumption_amended_witness :
    ([] : List Nat) = [0, 0, 0, 7].drop (payloadConsumed 4 (u32be 0 0 0 2)) :=
  C2_consumption_amended 0 0 0 2 4 [0, 0, 0, 7] (.Have 7) []
    (by decide) (by decide)

/-- C2 counterexample: on `[00 00 00 02][00][99]` (a `choke` frame with
declared length 2) extraction succeeds but consumes only 5 bytes — the
prefix plus the tag — leaving the declared payload byte `99` in the
buffer, not the `4 + len = 6` bytes the claim asserts. -/
theorem C2_counterexample :
    parse_frame [0, 0, 0, 2, 0, 99] = ⟨.ok (some .Choke), [99]⟩ ∧
    [99] ≠ List.drop (4 + 2) [0, 0, 0, 2, 0, 99] := by decide

end Peer
